import Mathlib

/-
  Verification of the eruption-roccat-vulcan daemon core.

  Shallow embedding of the color compositor (src/scripting/script.rs), the
  macro engine / uinput writer thread (src/plugins/macros.rs) and the event
  bus (src/events.rs).  Machine integers are modelled as Nat with explicit
  wrap-around (% 2^w) where the source can overflow; fallible paths are
  modelled with Option / Except; a Rust panic (a .unwrap() that can fail,
  or an out-of-bounds index) is modelled as an explicit outcome.
-/

set_option maxRecDepth 100000

namespace Eruption

/-- Modelled from the spec: NUM_KEYS is the device constant K (the number of
addressable keys), defined in rvdevice.rs which is not part of the analysed
sources.  The spec fixes no numeric value; 144 is the key count of the
supported ROCCAT Vulcan keyboard.  None of the claims below depend on the
exact value beyond K being at least 2. -/
def NUM_KEYS : Nat := 144

/-- Pixel type RGBA from rvdevice.rs: four 8-bit channels.  Channels are
modelled as Nat; the u8 range is carried as hypotheses (each < 256) where a
theorem needs it. -/
structure RGBA where
  r : Nat
  g : Nat
  b : Nat
  a : Nat
deriving DecidableEq, Repr

/-- The all-zero pixel, the initial content of LED_MAP and LOCAL_LED_MAP
(script.rs lines 53-71). -/
def rgbaZero : RGBA := ⟨0, 0, 0, 0⟩

instance : Inhabited RGBA := ⟨rgbaZero⟩

/-- callbacks::rgb_to_color (script.rs lines 186-188):
LittleEndian::read_u32 of the bytes [b, g, r, 255]. -/
def rgb_to_color (r g b : Nat) : Nat :=
  b + g * 256 + r * 65536 + 255 * 16777216

/-- callbacks::rgba_to_color (script.rs lines 191-193):
LittleEndian::read_u32 of the bytes [b, g, r, a]. -/
def rgba_to_color (r g b a : Nat) : Nat :=
  b + g * 256 + r * 65536 + a * 16777216

/-- callbacks::color_to_rgb (script.rs lines 154-160): extracts
r = (c >> 16) & 0xff, g = (c >> 8) & 0xff, b = c & 0xff. -/
def color_to_rgb (c : Nat) : Nat × Nat × Nat :=
  (c / 65536 % 256, c / 256 % 256, c % 256)

/-- callbacks::color_to_rgba (script.rs lines 164-171): extracts
a = (c >> 24) & 0xff, r = (c >> 16) & 0xff, g = (c >> 8) & 0xff,
b = c & 0xff and returns the tuple (r, g, b, a). -/
def color_to_rgba (c : Nat) : Nat × Nat × Nat × Nat :=
  (c / 65536 % 256, c / 256 % 256, c % 256, c / 16777216 % 256)

/-- callbacks::get_key_color (script.rs lines 343-346).  The source logs the
device id and index at error level and returns the constant 0; it never
reads LED_MAP. -/
def get_key_color (rvdevid : String) (idx : Nat) : Nat :=
  0

/-- One element of callbacks::get_color_map (script.rs lines 370-385):
(v.r as u32).overflowing_shl(16).0 + (v.g as u32).overflowing_shl(8).0 + v.b,
all in u32 arithmetic (shifts wrap at 2^32; the sums cannot overflow for
8-bit channels but the wrap is kept for faithfulness). -/
def pack_rgb (v : RGBA) : Nat :=
  ((v.r * 65536 % 4294967296 + v.g * 256 % 4294967296) % 4294967296 + v.b) % 4294967296

/-- callbacks::get_color_map (script.rs lines 370-385): maps pack_rgb over
the global LED map. -/
def get_color_map (led_map : List RGBA) : List Nat :=
  led_map.map pack_rgb

/-- The RGBA construction used by set_color_map and submit_color_map
(script.rs lines 400-405 and 441-446):
a = (c >> 24) & 0xff, r = (c >> 16) & 0xff, g = (c >> 8) & 0xff, b = c & 0xff. -/
def unpack_color (c : Nat) : RGBA :=
  { a := c / 16777216 % 256
    r := c / 65536 % 256
    g := c / 256 % 256
    b := c % 256 }

/-- The copy loop shared by set_color_map (script.rs lines 398-411) and
submit_color_map (lines 439-452):

  let mut i = 0;
  loop { led_map[i] = unpack(map[i]); i += 1; if i >= NUM_KEYS - 1 { break; } }

The loop writes indices 0 .. NUM_KEYS-2 and stops before writing index
NUM_KEYS-1.  The extra fuel argument only makes the recursion structural;
with fuel = NUM_KEYS the fuel-exhausted branch is unreachable because the
loop breaks after NUM_KEYS-1 iterations. -/
def copy_loop (map : List Nat) : Nat → Nat → List RGBA → List RGBA
  | 0, _, led_map => led_map
  | fuel + 1, i, led_map =>
    let led_map2 := led_map.set i (unpack_color (map.getD i 0))
    if NUM_KEYS - 1 ≤ i + 1 then led_map2
    else copy_loop map fuel (i + 1) led_map2

/-- callbacks::set_color_map (script.rs lines 388-424): builds a fresh local
array of NUM_KEYS zero pixels, runs the copy loop over the input map, and
replaces the global LED map with the result (the subsequent send_led_map and
sleep are device effects outside this model).  Returns the new global map. -/
def set_color_map (map : List Nat) : List RGBA :=
  copy_loop map NUM_KEYS 0 (List.replicate NUM_KEYS rgbaZero)

/-- callbacks::submit_color_map (script.rs lines 428-455): identical copy
loop into a fresh zeroed array, then copy_from_slice into the thread-local
LOCAL_LED_MAP.  Returns the new local map. -/
def submit_color_map (map : List Nat) : List RGBA :=
  copy_loop map NUM_KEYS 0 (List.replicate NUM_KEYS rgbaZero)

/-- One blended channel of the RealizeColorMap handler (script.rs lines
539-545):

  ((((fg.a as f64) * fg.c as f64 + (255 - fg.a) as f64 * bg.c as f64).abs()
     * brightness as f64 / 100.0) as u32 >> 8) as u8

For 8-bit channel inputs and brightness up to 255 every product and sum in
the f64 expression is an exact integer below 2^53, the division by 100.0 is
correctly rounded with error far below the 1/100 gap to the next integer,
and the "as u32" cast truncates toward zero, so the f64 pipeline computes
exactly the Nat floor division by 100.  The ">> 8" is a further floor
division by 256 and "as u8" truncates modulo 256 (a no-op whenever
brightness <= 100, since the value is then at most 254). -/
def blend_channel (fga fgc bgc brightness : Nat) : Nat :=
  (((fga * fgc + (255 - fga) * bgc) * brightness / 100) >>> 8) % 256

/-- The RGBA value assigned to one global pixel by the RealizeColorMap
handler (script.rs lines 540-545): the three blended channels plus
a = fg.a. -/
def blend_pixel (fg bg : RGBA) (brightness : Nat) : RGBA :=
  { r := blend_channel fg.a fg.r bg.r brightness
    g := blend_channel fg.a fg.g bg.g brightness
    b := blend_channel fg.a fg.b bg.b brightness
    a := fg.a }

/-- The loop of the RealizeColorMap handler (script.rs lines 531-549): for
each (idx, background) in the global map, read foreground[idx] from the
script-local map and overwrite the global pixel with the blend.  The index
argument threads the enumerate counter; the source indexes the foreground
vector directly (panicking if it were shorter), modelled by getD under the
length invariant carried by the theorems. -/
def realize_go (foreground : List RGBA) (brightness : Nat) : Nat → List RGBA → List RGBA
  | _, [] => []
  | idx, bg :: rest =>
    blend_pixel (foreground.getD idx rgbaZero) bg brightness ::
      realize_go foreground brightness (idx + 1) rest

/-- The full blend of a RealizeColorMap message (script.rs lines 531-549):
the new global map produced from the old global map and the script-local
foreground map at the current brightness. -/
def realize_color_map (global_map foreground : List RGBA) (brightness : Nat) : List RGBA :=
  realize_go foreground brightness 0 global_map

/-- Follows the spec words only (section 3, Blend rule), for comparison with
blend_channel: global.c-new = clip8((fg.a * fg.c + (255 - fg.a) * bg.c)
* brightness / (255 * 100)).  clip8 saturates at 255; the division is the
exact rational value floored (at the counterexample below the quotient is an
exact integer, so the rounding convention does not matter). -/
def blend_channel_per_spec (fga fgc bgc brightness : Nat) : Nat :=
  min ((fga * fgc + (255 - fga) * bgc) * brightness / 25500) 255

/-- Rust usize::checked_sub: some (n - k) when k <= n, none otherwise. -/
def checked_sub (n k : Nat) : Option Nat :=
  if k ≤ n then some (n - k) else none

/-- The barrier signalling step of the RealizeColorMap handler (script.rs
lines 551-560):

  crate::COLOR_MAPS_READY_CONDITION.0.lock().checked_sub(1)
      .unwrap_or_else(|| { warn!(..); 0 });
  crate::COLOR_MAPS_READY_CONDITION.1.notify_one();

The checked_sub is called on the value behind the mutex guard and its result
is discarded; nothing is ever stored back through the guard, so the counter
keeps its old value.  The returned pair is (counter value after the
statement, whether notify_one was called). -/
def color_maps_ready_signal (counter : Nat) : Nat × Bool :=
  let _discarded := (checked_sub counter 1).getD 0
  (counter, true)

/-- Rust f64::round: nearest integer, ties away from zero.  The rotate
pipeline is modelled over the rationals: every f64 operation in it is exact
or correctly rounded with error many orders of magnitude below the margins
appearing in the theorems about it. -/
def rust_round (q : ℚ) : ℤ :=
  if 0 ≤ q then ⌊q + 1/2⌋ else -⌊-q + 1/2⌋

/-- The private clamp helper of the callbacks module (script.rs lines
284-294): raise val to f1, lower it to f2, then cast to usize (truncation
toward zero; the clamped value is at least f1 and hence nonnegative). -/
def clamp (val : ℚ) (f1 f2 : Nat) : Nat :=
  let val1 := if val < (f1 : ℚ) then (f1 : ℚ) else val
  let val2 := if val1 > (f2 : ℚ) then (f2 : ℚ) else val1
  ⌊val2⌋.toNat

/-- The source index that callbacks::rotate (script.rs lines 296-317) reads
for output position i:

  x = (i / sizes.0) as f64;  y = (i / sizes.1) as f64;
  t = new_rotation(theta) * homogeneous(x, y);
  idx = clamp((t.x * sizes.0 as f64 + t.y).round(), 0, sizes.0 * sizes.1);

The 2-D rotation matrix has rows (cos theta, -sin theta) and
(sin theta, cos theta); its two entries are taken here as the rational
parameters cosT and sinT standing for the f64 cosine and sine of theta. -/
def rotate_source_index (cosT sinT : ℚ) (sizes : Nat × Nat) (i : Nat) : Nat :=
  let x : ℚ := (i / sizes.fst : Nat)
  let y : ℚ := (i / sizes.snd : Nat)
  let tx := cosT * x - sinT * y
  let ty := sinT * x + cosT * y
  clamp ((rust_round (tx * (sizes.fst : ℚ) + ty) : ℤ) : ℚ) 0 (sizes.fst * sizes.snd)

/-- callbacks::rotate (script.rs lines 296-317): result[i] = map[idx(i)] for
every i below map.len().  The indexing map[idx] panics when idx is out of
bounds; the panic is modelled by none (List.get? is none exactly there). -/
def rotate (map : List Nat) (cosT sinT : ℚ) (sizes : Nat × Nat) : Option (List Nat) :=
  (List.range map.length).mapM fun i => map.get? (rotate_source_index cosT sinT sizes i)

/-- Timestamp of an input event (struct timeval). -/
structure TimeVal where
  tv_sec : Int
  tv_usec : Int
deriving DecidableEq, Repr

/-- Event type of an evdev input event; only the types the analysed code
constructs or matches are modelled. -/
inductive EventType where
  | ev_key
  | ev_syn
  | ev_msc
deriving DecidableEq, Repr

/-- Event code of an evdev input event: a key code, or SYN_REPORT. -/
inductive EventCode where
  | ev_key (code : Nat)
  | ev_syn_report
deriving DecidableEq, Repr

/-- An evdev InputEvent as constructed in macros.rs. -/
structure InputEvent where
  time : TimeVal
  event_type : EventType
  event_code : EventCode
  value : Int
deriving DecidableEq, Repr

/-- The virtual uinput device owned by the macro thread, observed through
the sequence of events successfully passed to write_event. -/
structure DeviceState where
  written : List InputEvent
deriving DecidableEq, Repr

/-- The state the uinput thread acts on: the thread-local DEVICE slot
(macros.rs lines 58-61, none before initialization) and the process-wide
DROP_CURRENT_KEY flag (macros.rs line 55). -/
structure UinputState where
  device : Option DeviceState
  drop_current_key : Bool
deriving DecidableEq, Repr

/-- Outcome of one step of the uinput thread: a new state, or a panic of the
thread (a .unwrap() applied to an Err / a failed expect). -/
inductive ThreadOutcome (α : Type) where
  | ok (a : α)
  | panicked
deriving DecidableEq, Repr

/-- UInputDevice::write_event: appends the event on success.  Whether the
kernel write fails is an environment input, passed as the fails flag. -/
def write_event (d : DeviceState) (ev : InputEvent) (fails : Bool) : Option DeviceState :=
  if fails then none else some ⟨d.written ++ [ev]⟩

/-- MacrosPlugin::inject_key_event (macros.rs lines 348-366): with a device
present, device.write_event(&event).unwrap() writes the event verbatim and
panics if the write fails.  With no device present it runs the thread-local
setup (macros.rs lines 72-307) and unwraps its result: on success the slot
holds a fresh device and the function returns Ok without writing the event,
on failure the thread panics; init_fails is that environment input. -/
def inject_key_event (st : UinputState) (ev : InputEvent) (write_fails init_fails : Bool) :
    ThreadOutcome UinputState :=
  match st.device with
  | some d =>
    match write_event d ev write_fails with
    | none => ThreadOutcome.panicked
    | some d2 => ThreadOutcome.ok { st with device := some d2 }
  | none =>
    if init_fails then ThreadOutcome.panicked
    else ThreadOutcome.ok { st with device := some (DeviceState.mk []) }

/-- MacrosPlugin::inject_single_key (macros.rs lines 310-345): with a device
present it writes an EV_KEY event and then a SYN_REPORT with the same
timestamp, unwrapping each write (a failed write panics the thread).  With
no device present it logs an error and returns Ok(()), leaving the state
unchanged. -/
def inject_single_key (st : UinputState) (key : Nat) (value : Int) (time : TimeVal)
    (write_fails_key write_fails_syn : Bool) : ThreadOutcome UinputState :=
  match st.device with
  | some d =>
    match write_event d ⟨time, EventType.ev_key, EventCode.ev_key key, value⟩ write_fails_key with
    | none => ThreadOutcome.panicked
    | some d2 =>
      match write_event d2 ⟨time, EventType.ev_syn, EventCode.ev_syn_report, value⟩ write_fails_syn with
      | none => ThreadOutcome.panicked
      | some d3 => ThreadOutcome.ok { st with device := some d3 }
  | none => ThreadOutcome.ok st

/-- The MirrorKey arm of the uinput thread loop (macros.rs lines 457-463):
if DROP_CURRENT_KEY is set the command is dropped (a debug log only; the
flag is not touched), otherwise Self::inject_key_event(raw_event).unwrap()
runs. -/
def process_mirror (st : UinputState) (raw : InputEvent) (write_fails init_fails : Bool) :
    ThreadOutcome UinputState :=
  if st.drop_current_key then ThreadOutcome.ok st
  else inject_key_event st raw write_fails init_fails

/-- The Event type of the event bus (events.rs lines 26-36).  The payload of
FileSystemEvent (crate::FileSystemEvent, defined outside the analysed
sources) is opaque and modelled as a Nat. -/
inductive Event where
  | daemonStartup
  | daemonShutdown
  | fileSystemEvent (payload : Nat)
  | rawKeyboardEvent (ev : InputEvent)
  | keyDown (code : Nat)
  | keyUp (code : Nat)
deriving DecidableEq, Repr

/-- events::register_observer (events.rs lines 45-50): pushes the callback
at the end of the observer list, so list order is registration order. -/
def register_observer {ε : Type} (observers : List (Event → Except ε Bool))
    (callback : Event → Except ε Bool) : List (Event → Except ε Bool) :=
  observers ++ [callback]

/-- events::notify_observers (events.rs lines 52-58): calls each observer in
list order; the ? operator returns the first Err immediately, otherwise
Ok(()) after the last observer. -/
def notify_observers {ε : Type} (observers : List (Event → Except ε Bool)) (event : Event) :
    Except ε Unit :=
  match observers with
  | [] => Except.ok ()
  | cb :: rest =>
    match cb event with
    | Except.error e => Except.error e
    | Except.ok _ => notify_observers rest event

/-- Instrumentation of notify_observers: how many callbacks the traversal
invokes before stopping.  It mirrors the same left-to-right traversal, so
together with notify_observers it records that exactly the first
invoked_count observers of the list run, in list (= registration) order. -/
def invoked_count {ε : Type} (observers : List (Event → Except ε Bool)) (event : Event) : Nat :=
  match observers with
  | [] => 0
  | cb :: rest =>
    match cb event with
    | Except.error _ => 1
    | Except.ok _ => 1 + invoked_count rest event

/-- A concrete input event used by the closed witness and counterexample
statements below: key code 30, value 1 (key down), timestamp zero. -/
def sample_event : InputEvent :=
  ⟨⟨0, 0⟩, EventType.ev_key, EventCode.ev_key 30, 1⟩

/-- An in-bounds getD is a member of the list. -/
theorem getD_mem {α : Type} (l : List α) (i : Nat) (d : α) (h : i < l.length) :
    l.getD i d ∈ l := by
  induction l generalizing i with
  | nil => simp at h
  | cons x xs ih =>
    cases i with
    | zero => simp
    | succ n =>
      simp only [List.getD_cons_succ]
      exact List.mem_cons_of_mem x (ih n (by simpa using h))

/-- An in-bounds getD commutes with map, for any defaults. -/
theorem getD_map_of_lt {α β : Type} (f : α → β) (l : List α) (i : Nat) (d : α) (d2 : β)
    (h : i < l.length) : (l.map f).getD i d2 = f (l.getD i d) := by
  induction l generalizing i with
  | nil => simp at h
  | cons x xs ih =>
    cases i with
    | zero => simp
    | succ n => simpa using ih n (by simpa using h)

/-- realize_go preserves the length of the global map. -/
theorem realize_go_length (f : List RGBA) (b : Nat) :
    ∀ (k : Nat) (g : List RGBA), (realize_go f b k g).length = g.length := by
  intro k g
  induction g generalizing k with
  | nil => rfl
  | cons bg rest ih => simpa [realize_go] using ih (k + 1)

/-- Pointwise description of realize_go: output pixel i is the blend of
foreground pixel k+i over global pixel i. -/
theorem realize_go_getD (f : List RGBA) (b : Nat) :
    ∀ (g : List RGBA) (k i : Nat), i < g.length →
      (realize_go f b k g).getD i rgbaZero =
        blend_pixel (f.getD (k + i) rgbaZero) (g.getD i rgbaZero) b := by
  intro g
  induction g with
  | nil => intro k i h; simp at h
  | cons bg rest ih =>
    intro k i h
    cases i with
    | zero => simp [realize_go]
    | succ n =>
      have := ih (k + 1) n (by simpa using h)
      simp only [realize_go, List.getD_cons_succ, this]
      have harg : k + 1 + n = k + (n + 1) := by omega
      rw [harg]

/-- For 8-bit inputs and brightness at most 100, the code channel equals a
single floor division by 25600 (the trailing mod 256 of the u8 cast never
truncates because the value is at most 254). -/
theorem blend_channel_eq (fga fgc bgc b : Nat)
    (hfga : fga ≤ 255) (hfgc : fgc ≤ 255) (hbgc : bgc ≤ 255) (hb : b ≤ 100) :
    blend_channel fga fgc bgc b = (fga * fgc + (255 - fga) * bgc) * b / 25600 := by
  unfold blend_channel
  rw [Nat.shiftRight_eq_div_pow]
  have hS : fga * fgc + (255 - fga) * bgc ≤ 65025 := by
    have hs1 : fga * fgc ≤ fga * 255 := Nat.mul_le_mul_left fga hfgc
    have hs2 : (255 - fga) * bgc ≤ (255 - fga) * 255 := Nat.mul_le_mul_left (255 - fga) hbgc
    have hs3 : fga * 255 + (255 - fga) * 255 = (fga + (255 - fga)) * 255 := by ring
    have hs4 : fga + (255 - fga) = 255 := by omega
    omega
  have hSb : (fga * fgc + (255 - fga) * bgc) * b ≤ 6502500 := by
    calc (fga * fgc + (255 - fga) * bgc) * b ≤ 65025 * 100 := Nat.mul_le_mul hS hb
    _ = 6502500 := by norm_num
  have h1 : (fga * fgc + (255 - fga) * bgc) * b / 100 / 2 ^ 8 =
      (fga * fgc + (255 - fga) * bgc) * b / 25600 := by
    rw [Nat.div_div_eq_div_mul]
    norm_num
  rw [h1]
  have h2 : (fga * fgc + (255 - fga) * bgc) * b / 25600 < 256 := by
    have h2a : (fga * fgc + (255 - fga) * bgc) * b / 25600 ≤ 6502500 / 25600 :=
      Nat.div_le_div_right hSb
    omega
  exact Nat.mod_eq_of_lt h2

/-- C8: for every tuple of 8-bit values (r, g, b, a), packing the RGBA
components into a 32-bit color with rgba_to_color and unpacking them again
with color_to_rgba is the identity. -/
theorem color_roundtrip (r g b a : Nat)
    (hr : r < 256) (hg : g < 256) (hb : b < 256) (ha : a < 256) :
    color_to_rgba (rgba_to_color r g b a) = (r, g, b, a) := by
  simp only [color_to_rgba, rgba_to_color, Prod.mk.injEq]
  refine ⟨?_, ?_, ?_, ?_⟩ <;> omega

/-- Witness for color_roundtrip at (r, g, b, a) = (1, 2, 3, 4). -/
theorem color_roundtrip_witness :
    (1 : Nat) < 256 ∧ color_to_rgba (rgba_to_color 1 2 3 4) = (1, 2, 3, 4) :=
  ⟨by decide, color_roundtrip 1 2 3 4 (by decide) (by decide) (by decide) (by decide)⟩

/-- C10: for a global frame of length NUM_KEYS with 8-bit channels,
get_color_map returns exactly NUM_KEYS elements; element i packs only the
r, g, b channels of global pixel i (r in bits 16-23, g in bits 8-15, b in
bits 0-7), its high (alpha) byte is 0, and color_to_rgba applied to it
yields alpha component 0. -/
theorem get_color_map_alpha_zero (led_map : List RGBA)
    (hlen : led_map.length = NUM_KEYS)
    (hwf : ∀ p ∈ led_map, p.r ≤ 255 ∧ p.g ≤ 255 ∧ p.b ≤ 255) :
    (get_color_map led_map).length = NUM_KEYS ∧
    ∀ i, i < NUM_KEYS →
      (get_color_map led_map).getD i 0 =
        (led_map.getD i rgbaZero).r * 65536 + (led_map.getD i rgbaZero).g * 256 +
          (led_map.getD i rgbaZero).b ∧
      (get_color_map led_map).getD i 0 / 16777216 % 256 = 0 ∧
      (color_to_rgba ((get_color_map led_map).getD i 0)).2.2.2 = 0 := by
  constructor
  · simpa [get_color_map] using hlen
  · intro i hi
    have hil : i < led_map.length := by omega
    have hmem := getD_mem led_map i rgbaZero hil
    obtain ⟨hr, hg, hb⟩ := hwf _ hmem
    have hmap : (get_color_map led_map).getD i 0 = pack_rgb (led_map.getD i rgbaZero) :=
      getD_map_of_lt pack_rgb led_map i rgbaZero 0 hil
    rw [hmap]
    unfold pack_rgb color_to_rgba
    refine ⟨by omega, by omega, ?_⟩
    simp only
    omega

/-- Witness for get_color_map_alpha_zero on the all-white frame. -/
theorem get_color_map_alpha_zero_witness :
    (get_color_map (List.replicate NUM_KEYS (RGBA.mk 255 255 255 255))).length = NUM_KEYS ∧
    (get_color_map (List.replicate NUM_KEYS (RGBA.mk 255 255 255 255))).getD 0 0 / 16777216 % 256
      = 0 := by
  have h := get_color_map_alpha_zero (List.replicate NUM_KEYS (RGBA.mk 255 255 255 255))
    (by simp) (fun p hp => by rw [List.eq_of_mem_replicate hp]; decide)
  exact ⟨h.1, (h.2 0 (by decide)).2.1⟩

/-- C7 is violated by the code: get_key_color logs an error and returns the
constant 0 without reading the global frame.  With global pixel 0 set to
(r, g, b, a) = (1, 2, 3, 4) the packed encoding is 67174915 (0x04010203),
yet get_key_color returns 0 for every device id and index. -/
theorem get_key_color_unfinished :
    (∀ devid idx, get_key_color devid idx = 0) ∧
    rgba_to_color 1 2 3 4 = 67174915 ∧ (67174915 : Nat) ≠ 0 :=
  ⟨fun _ _ => rfl, by decide, by decide⟩

/-- C2 is violated by the code: the RealizeColorMap arm computes
counter.checked_sub(1) on the value behind the COLOR_MAPS_READY_CONDITION
mutex guard but discards the result, so with one script left (counter = 1)
the counter still holds 1 afterwards instead of 0, although the condition
variable is notified. -/
theorem color_maps_ready_not_decremented :
    color_maps_ready_signal 1 = (1, true) ∧ (color_maps_ready_signal 1).1 ≠ 0 := by
  decide

/-- C3 is violated by the code: the copy loop of set_color_map and
submit_color_map breaks once i reaches NUM_KEYS - 1, so the last pixel
(index NUM_KEYS - 1 = 143) is never copied from the input map; it is left
at the zero pixel of the freshly allocated array.  Here map[143] =
67174915 = 0x04010203, whose unpacking is (r, g, b, a) = (1, 2, 3, 4), yet
the produced frame has pixel 143 = (0, 0, 0, 0). -/
theorem set_color_map_last_pixel_zeroed :
    (set_color_map (List.replicate 143 0 ++ [67174915])).getD 143 rgbaZero = rgbaZero ∧
    (submit_color_map (List.replicate 143 0 ++ [67174915])).getD 143 rgbaZero = rgbaZero ∧
    unpack_color 67174915 = RGBA.mk 1 2 3 4 ∧
    unpack_color 67174915 ≠ rgbaZero := by
  refine ⟨?_, ?_, by decide, by decide⟩ <;> decide

/-- C1 as written is violated by the code: the blend divides by 256 (a right
shift by 8) after scaling by brightness/100, not by 255.  With one script
whose local frame is all (255, 255, 255, 255), the prior global frame all
zero and brightness 100, the code produces channel value
(255 * 255 * 100 / 100) >> 8 = 254 for pixel 0, while the spec formula
clip8(255 * 255 * 100 / (255 * 100)) gives 255, so the global frame is not
the local frame scaled by brightness/100. -/
theorem realize_blend_counterexample :
    (realize_color_map (List.replicate NUM_KEYS rgbaZero)
        (List.replicate NUM_KEYS (RGBA.mk 255 255 255 255)) 100).getD 0 rgbaZero =
      RGBA.mk 254 254 254 255 ∧
    blend_channel_per_spec 255 255 0 100 = 255 ∧
    ((realize_color_map (List.replicate NUM_KEYS rgbaZero)
        (List.replicate NUM_KEYS (RGBA.mk 255 255 255 255)) 100).getD 0 rgbaZero).r ≠
      blend_channel_per_spec 255 255 0 100 := by
  refine ⟨by decide, by decide, by decide⟩

/-- C1 amended: when a script host processes RealizeColorMap, for every key
index i the new global pixel has, per channel c,
global.c-new = ((fg.a * fg.c + (255 - fg.a) * bg.c) * brightness / 100) / 256
with floor divisions (the code truncates the brightness scaling to an
integer and then shifts right by 8, dividing by 256 rather than 255), and
global.a-new = fg.a.  With fg.a = 255 everywhere the global frame becomes
(255 * fg.c * brightness / 100) / 256 per channel, which is the local frame
scaled by brightness/100 and then by 255/256 (floored), not by
brightness/100 alone. -/
theorem realize_blend_formula (g l : List RGBA) (b i : Nat)
    (hg : g.length = NUM_KEYS) (hl : l.length = NUM_KEYS)
    (hi : i < NUM_KEYS) (hb : b ≤ 100)
    (hwfl : ∀ p ∈ l, p.r ≤ 255 ∧ p.g ≤ 255 ∧ p.b ≤ 255 ∧ p.a ≤ 255)
    (hwfg : ∀ p ∈ g, p.r ≤ 255 ∧ p.g ≤ 255 ∧ p.b ≤ 255) :
    (realize_color_map g l b).length = NUM_KEYS ∧
    (realize_color_map g l b).getD i rgbaZero =
      { r := ((l.getD i rgbaZero).a * (l.getD i rgbaZero).r +
              (255 - (l.getD i rgbaZero).a) * (g.getD i rgbaZero).r) * b / 25600
        g := ((l.getD i rgbaZero).a * (l.getD i rgbaZero).g +
              (255 - (l.getD i rgbaZero).a) * (g.getD i rgbaZero).g) * b / 25600
        b := ((l.getD i rgbaZero).a * (l.getD i rgbaZero).b +
              (255 - (l.getD i rgbaZero).a) * (g.getD i rgbaZero).b) * b / 25600
        a := (l.getD i rgbaZero).a } ∧
    ((l.getD i rgbaZero).a = 255 →
      ((realize_color_map g l b).getD i rgbaZero).r =
        255 * (l.getD i rgbaZero).r * b / 25600) := by
  have hil : i < l.length := by omega
  have hig : i < g.length := by omega
  obtain ⟨hlr, hlg, hlb, hla⟩ := hwfl _ (getD_mem l i rgbaZero hil)
  obtain ⟨hgr, hgg, hgb⟩ := hwfg _ (getD_mem g i rgbaZero hig)
  have hlen : (realize_color_map g l b).length = NUM_KEYS := by
    rw [realize_color_map, realize_go_length, hg]
  have hpx : (realize_color_map g l b).getD i rgbaZero =
      blend_pixel (l.getD i rgbaZero) (g.getD i rgbaZero) b := by
    have h0 := realize_go_getD l b g 0 i hig
    simpa [realize_color_map] using h0
  refine ⟨hlen, ?_, ?_⟩
  · rw [hpx]
    unfold blend_pixel
    rw [blend_channel_eq _ _ _ _ hla hlr hgr hb, blend_channel_eq _ _ _ _ hla hlg hgg hb,
      blend_channel_eq _ _ _ _ hla hlb hgb hb]
  · intro h255
    rw [hpx]
    unfold blend_pixel
    simp only
    rw [blend_channel_eq _ _ _ _ hla hlr hgr hb, h255]
    have harg : 255 * (l.getD i rgbaZero).r + (255 - 255) * (g.getD i rgbaZero).r =
        255 * (l.getD i rgbaZero).r := by omega
    rw [harg]

/-- Witness for realize_blend_formula: all-opaque white local frame over a
zero global frame at brightness 100 yields pixel 0 = (254, 254, 254, 255). -/
theorem realize_blend_formula_witness :
    (realize_color_map (List.replicate NUM_KEYS rgbaZero)
        (List.replicate NUM_KEYS (RGBA.mk 255 255 255 255)) 100).getD 0 rgbaZero =
      RGBA.mk 254 254 254 255 ∧
    ((realize_color_map (List.replicate NUM_KEYS rgbaZero)
        (List.replicate NUM_KEYS (RGBA.mk 255 255 255 255)) 100).getD 0 rgbaZero).r =
      255 * 255 * 100 / 25600 := by
  have h := realize_blend_formula (List.replicate NUM_KEYS rgbaZero)
    (List.replicate NUM_KEYS (RGBA.mk 255 255 255 255)) 100 0
    (by simp) (by simp) (by decide) (by decide)
    (fun p hp => by rw [List.eq_of_mem_replicate hp]; decide)
    (fun p hp => by rw [List.eq_of_mem_replicate hp]; decide)
  constructor
  · rw [h.2.1]; decide
  · rw [h.2.2 (by decide)]; decide

/-- C4: for every Mirror(raw) command processed by the macro thread, if
DROP_CURRENT_KEY is true the raw event is not written to the virtual device
and the whole state (the flag included) is unchanged; if DROP_CURRENT_KEY is
false and the device write succeeds, exactly the raw event is appended
verbatim to the virtual device. -/
theorem mirror_drop_gate (st : UinputState) (raw : InputEvent) (wf initf : Bool) :
    (st.drop_current_key = true → process_mirror st raw wf initf = ThreadOutcome.ok st) ∧
    (st.drop_current_key = false → ∀ d, st.device = some d → wf = false →
      process_mirror st raw wf initf =
        ThreadOutcome.ok ⟨some ⟨d.written ++ [raw]⟩, false⟩) := by
  constructor
  · intro h
    simp [process_mirror, h]
  · intro h d hd hwf
    subst hwf
    cases st with
    | mk dev flag =>
      simp only at h hd
      subst h
      subst hd
      simp [process_mirror, inject_key_event, write_event]

/-- Witness for mirror_drop_gate: with the drop-gate set the state is
untouched; with it clear the sample event is appended to the device. -/
theorem mirror_drop_gate_witness :
    process_mirror ⟨some ⟨[]⟩, true⟩ sample_event false false =
      ThreadOutcome.ok ⟨some ⟨[]⟩, true⟩ ∧
    process_mirror ⟨some ⟨[]⟩, false⟩ sample_event false false =
      ThreadOutcome.ok ⟨some ⟨[] ++ [sample_event]⟩, false⟩ :=
  ⟨(mirror_drop_gate ⟨some ⟨[]⟩, true⟩ sample_event false false).1 rfl,
   (mirror_drop_gate ⟨some ⟨[]⟩, false⟩ sample_event false false).2 rfl ⟨[]⟩ rfl rfl⟩

/-- C5 as written is violated by the code: a failed write to the virtual
device is unwrapped, so the macro thread panics on a Mirror command instead
of logging and continuing. -/
theorem mirror_write_failure_panics :
    process_mirror ⟨some ⟨[]⟩, false⟩ sample_event true false = ThreadOutcome.panicked := by
  rfl

/-- C5 amended: a failed write to the virtual device is fatal: both the
Mirror path (inject_key_event) and the Inject path (inject_single_key)
unwrap the write result, panicking the macro thread.  The only failure the
thread logs and survives is a missing device handle in inject_single_key,
which returns Ok with the state unchanged. -/
theorem write_failure_panics_amended (st : UinputState) (ev : InputEvent) (d : DeviceState)
    (key : Nat) (value : Int) (t : TimeVal) (wsyn initf : Bool) :
    (st.drop_current_key = false → st.device = some d →
      process_mirror st ev true initf = ThreadOutcome.panicked) ∧
    (st.device = some d →
      inject_single_key st key value t true wsyn = ThreadOutcome.panicked) ∧
    (st.device = none →
      inject_single_key st key value t true wsyn = ThreadOutcome.ok st) := by
  refine ⟨?_, ?_, ?_⟩
  · intro h hd
    simp [process_mirror, h, inject_key_event, hd, write_event]
  · intro hd
    simp [inject_single_key, hd, write_event]
  · intro hd
    simp [inject_single_key, hd]

/-- Witness for write_failure_panics_amended at concrete states. -/
theorem write_failure_panics_amended_witness :
    process_mirror ⟨some ⟨[]⟩, false⟩ sample_event true false = ThreadOutcome.panicked ∧
    inject_single_key ⟨some ⟨[]⟩, false⟩ 30 1 ⟨0, 0⟩ true false = ThreadOutcome.panicked ∧
    inject_single_key ⟨none, false⟩ 30 1 ⟨0, 0⟩ true false =
      ThreadOutcome.ok ⟨none, false⟩ :=
  ⟨(write_failure_panics_amended ⟨some ⟨[]⟩, false⟩ sample_event ⟨[]⟩ 30 1 ⟨0, 0⟩ false
      false).1 rfl rfl,
   (write_failure_panics_amended ⟨some ⟨[]⟩, false⟩ sample_event ⟨[]⟩ 30 1 ⟨0, 0⟩ false
      false).2.1 rfl,
   (write_failure_panics_amended ⟨none, false⟩ sample_event ⟨[]⟩ 30 1 ⟨0, 0⟩ false
      false).2.2 rfl⟩

/-- C6 is violated by the code: clamp is called with inclusive upper bound
cols * rows = len(map), not len(map) - 1, so the clamped source index can
equal len(map) and the read map[idx] is out of bounds (a panic, modelled by
none).  Concretely, for the frame [5, 7] of length 2 = cols * rows with
(cols, rows) = (2, 1) and theta = -arctan(3/4), so that cos theta = 4/5 and
sin theta = -3/5 (an exact rotation: the squares sum to 1), output position
1 reads source index 2 = len(map). -/
theorem rotate_reads_out_of_bounds :
    ((4/5 : ℚ) * (4/5) + (-3/5 : ℚ) * (-3/5) = 1) ∧
    rotate_source_index (4/5) (-3/5) (2, 1) 1 = 2 ∧
    ([5, 7] : List Nat).length = 2 ∧
    rotate [5, 7] (4/5) (-3/5) (2, 1) = none := by
  have h0 : rotate_source_index (4/5) (-3/5) (2, 1) 0 = 0 := by
    norm_num [rotate_source_index, clamp, rust_round, Int.toNat_ofNat]
  have h1 : rotate_source_index (4/5) (-3/5) (2, 1) 1 = 2 := by
    norm_num [rotate_source_index, clamp, rust_round]
    decide
  refine ⟨by norm_num, h1, by decide, ?_⟩
  simp only [rotate, List.length_cons, List.length_nil]
  have hr : List.range 2 = [0, 1] := by decide
  rw [hr]
  simp [List.mapM, List.mapM.loop, h0, h1]

/-- C9: notify_observers delivers in registration (list) order.  If every
observer returns Ok, all of them are invoked (the invocation count equals
the list length) and the result is Ok(()); if the observers are pre ++ cb ::
post with every observer of pre returning Ok and cb returning Err e, then
exactly the first pre.length + 1 observers are invoked (none registered
after cb runs) and the result is Err e. -/
theorem notify_observers_order {ε : Type} (ev : Event) :
    (∀ obs : List (Event → Except ε Bool),
      (∀ cb ∈ obs, ∃ bv, cb ev = Except.ok bv) →
      notify_observers obs ev = Except.ok () ∧ invoked_count obs ev = obs.length) ∧
    (∀ (pre post : List (Event → Except ε Bool)) (cb : Event → Except ε Bool) (e : ε),
      (∀ c ∈ pre, ∃ bv, c ev = Except.ok bv) → cb ev = Except.error e →
      notify_observers (pre ++ cb :: post) ev = Except.error e ∧
      invoked_count (pre ++ cb :: post) ev = pre.length + 1) := by
  constructor
  · intro obs h
    induction obs with
    | nil => exact ⟨rfl, rfl⟩
    | cons cb rest ih =>
      obtain ⟨bv, hbv⟩ := h cb (List.mem_cons_self cb rest)
      have hrest := ih fun c hc => h c (List.mem_cons_of_mem cb hc)
      refine ⟨?_, ?_⟩
      · simp [notify_observers, hbv, hrest.1]
      · simp [invoked_count, hbv, hrest.2]
        omega
  · intro pre post cb e hpre hcb
    induction pre with
    | nil => simp [notify_observers, invoked_count, hcb]
    | cons c cs ih =>
      obtain ⟨bv, hbv⟩ := hpre c (List.mem_cons_self c cs)
      obtain ⟨hrn, hrc⟩ := ih fun x hx => hpre x (List.mem_cons_of_mem c hx)
      constructor
      · show notify_observers (c :: (cs ++ cb :: post)) ev = Except.error e
        simp only [notify_observers, hbv]
        exact hrn
      · show invoked_count (c :: (cs ++ cb :: post)) ev = (c :: cs).length + 1
        simp only [invoked_count, hbv]
        rw [hrc]
        simp only [List.length_cons]
        omega

/-- Witness for notify_observers_order: three observers where the second
fails with error 7 give Err 7 with exactly two invocations, and a single
succeeding observer gives Ok with one invocation. -/
theorem notify_observers_order_witness :
    notify_observers [fun (_ : Event) => (Except.ok true : Except Nat Bool)]
      Event.daemonStartup = Except.ok () ∧
    invoked_count [fun (_ : Event) => (Except.ok true : Except Nat Bool)]
      Event.daemonStartup =
      [fun (_ : Event) => (Except.ok true : Except Nat Bool)].length ∧
    notify_observers
      ([fun (_ : Event) => (Except.ok true : Except Nat Bool)] ++
        (fun (_ : Event) => (Except.error 7 : Except Nat Bool)) ::
          [fun (_ : Event) => (Except.ok false : Except Nat Bool)])
      Event.daemonStartup = Except.error 7 ∧
    invoked_count
      ([fun (_ : Event) => (Except.ok true : Except Nat Bool)] ++
        (fun (_ : Event) => (Except.error 7 : Except Nat Bool)) ::
          [fun (_ : Event) => (Except.ok false : Except Nat Bool)])
      Event.daemonStartup =
      [fun (_ : Event) => (Except.ok true : Except Nat Bool)].length + 1 := by
  have hsingle : ∀ c ∈ [fun (_ : Event) => (Except.ok true : Except Nat Bool)],
      ∃ bv, c Event.daemonStartup = Except.ok bv := by
    intro c hc
    rw [List.eq_of_mem_singleton hc]
    exact ⟨true, rfl⟩
  have h1 := (notify_observers_order Event.daemonStartup).1
    [fun (_ : Event) => (Except.ok true : Except Nat Bool)] hsingle
  have h2 := (notify_observers_order Event.daemonStartup).2
    [fun (_ : Event) => (Except.ok true : Except Nat Bool)]
    [fun (_ : Event) => (Except.ok false : Except Nat Bool)]
    (fun (_ : Event) => (Except.error 7 : Except Nat Bool)) 7
    hsingle rfl
  exact ⟨h1.1, h1.2, h2.1, h2.2⟩

end Eruption
